import Mathlib

/-!
Verification development for the advanced-RAG sample notebooks
(Bedrock knowledge-base retrieval, SageMaker inference, guardrails,
multi-model evaluation sweeps).

The notebooks' local logic is embedded shallowly:
* Python dictionaries become insertion-ordered association lists
  (`dget`, `dset`, `dmerge` mirror `d[k]`, `d[k] = v`, `{**a, **b}`).
* JSON-decoded values become the inductive type `Json`.
* Network clients become oracle functions passed as parameters; the
  embedded functions additionally return the list of requests they
  issued, so call counts are visible in the model.
* Python exceptions become `Except` values carrying a `PyErr`.
-/

namespace RagNotebooks

/-- Lookup in a Python dictionary modelled as an association list
(first binding of the key wins; keys are kept unique by `dset`). -/
def dget {κ ν : Type} [DecidableEq κ] : List (κ × ν) → κ → Option ν
  | [], _ => none
  | (k', v) :: rest, k => if k' = k then some v else dget rest k

/-- Python `k in d`. -/
def dmem {κ ν : Type} [DecidableEq κ] (d : List (κ × ν)) (k : κ) : Bool :=
  (dget d k).isSome

/-- Python `d[k] = v`: overwrite in place when the key exists (keeping its
position, as CPython dicts do), otherwise append the new binding. -/
def dset {κ ν : Type} [DecidableEq κ] (d : List (κ × ν)) (k : κ) (v : ν) :
    List (κ × ν) :=
  if dmem d k then d.map (fun p => if p.1 = k then (k, v) else p)
  else d ++ [(k, v)]

/-- Python `{**a, **b}` (also `a.update(b)`): bindings of `b` overwrite
bindings of `a` with the same key. -/
def dmerge {κ ν : Type} [DecidableEq κ] (a b : List (κ × ν)) : List (κ × ν) :=
  b.foldl (fun acc p => dset acc p.1 p.2) a

/-!
## Cost-and-latency merge pass (src/unnamed/part_001, cells "Cost and
Latency Evaluation")

Python source:
```
for kb_type in loaded_responses:
    inference_data = loaded_responses[kb_type]
    cost_and_latency_metrics = calculate_cost_and_latency_metrics(inference_data, ...)
    custom_eval_metrics = final_evaluation[model].copy()
    if kb_type not in final_evaluation:
        final_evaluation[model] = {**custom_eval_metrics, **cost_and_latency_metrics}
    else:
        merged = {**custom_eval_metrics, **cost_and_latency_metrics}
        final_evaluation[model].update(merged)
```
The name `model` is not bound by the loop (the loop variable is
`kb_type`); it is an ambient name, modelled here as the parameter
`model`.  (As the notebook stands, `model` is bound nowhere at all, so
running the cell raises `NameError`; the embedding adopts the generous
reading in which some ambient binding exists.)  `final_evaluation[model]`
raises `KeyError` when the key is missing, modelled by `Option`.
`calculate_cost_and_latency_metrics` is an external library function,
modelled as the parameter `calcMetrics`.  Metric records are Python dicts from
metric name to a number.
-/

/-- One iteration of the cost-and-latency merge loop. -/
def cost_latency_merge_step {δ : Type} (calcMetrics : δ → List (String × Int))
    (model : String) (final_evaluation : List (String × List (String × Int)))
    (kb_type : String) (inference_data : δ) :
    Option (List (String × List (String × Int))) :=
  let cost_and_latency_metrics := calcMetrics inference_data
  match dget final_evaluation model with
  | none => none
  | some custom_eval_metrics =>
    if ¬ (dmem final_evaluation kb_type) then
      some (dset final_evaluation model
        (dmerge custom_eval_metrics cost_and_latency_metrics))
    else
      match dget final_evaluation model with
      | none => none
      | some current =>
          let merged := dmerge custom_eval_metrics cost_and_latency_metrics
          some (dset final_evaluation model (dmerge current merged))

/-- The whole cost-and-latency merge pass over `loaded_responses`. -/
def cost_latency_merge {δ : Type} (calcMetrics : δ → List (String × Int))
    (model : String) (loaded_responses : List (String × δ))
    (final_evaluation : List (String × List (String × Int))) :
    Option (List (String × List (String × Int))) :=
  loaded_responses.foldlM
    (fun final p => cost_latency_merge_step calcMetrics model final p.1 p.2)
    final_evaluation

/-!
## Metadata filter (src/unnamed/part_000 and Lab 2 notebook, literal
`one_group_filter`)
-/

/-- A scalar value usable inside a metadata filter clause (the source
uses a string and an integer). -/
inductive FilterValue where
  | str (s : String)
  | num (n : Int)
deriving DecidableEq

/-- The `{"key": ..., "value": ...}` record inside an `equals` clause. -/
structure FilterEquals where
  key : String
  value : FilterValue
deriving DecidableEq

/-- One `{"equals": {...}}` clause of the filter. -/
structure EqualsClause where
  equals : FilterEquals
deriving DecidableEq

/-- The filter object `{"andAll": [clause, ...]}`: a single top-level AND
node over equality clauses, with no other nesting. -/
structure OneGroupFilter where
  andAll : List EqualsClause
deriving DecidableEq

/-- Modelled from the spec: the metadata filter builder ("given a set of
(key, value) equality constraints, produce a boolean AND-expression
object conforming to the retrieval service's filter schema").  The
repository builds its filters as literals of exactly this shape; this
definition is the general construction the literals instantiate. -/
def build_one_group_filter (pairs : List (String × FilterValue)) :
    OneGroupFilter :=
  { andAll := pairs.map (fun p => { equals := { key := p.1, value := p.2 } }) }

/-- The literal `one_group_filter` of src/unnamed/part_000 lines 93-108
(the Lab 2 notebook repeats the same literal). -/
def one_group_filter : OneGroupFilter :=
  { andAll :=
      [ { equals := { key := "docType", value := .str "10K Report" } },
        { equals := { key := "year", value := .num 2023 } } ] }

/-!
## JSON values and Python exceptions
-/

/-- A JSON value as decoded by Python's `json.loads` (restricted to the
shapes the notebooks handle: strings, integers, arrays, objects). -/
inductive Json where
  | str (s : String)
  | num (n : Int)
  | arr (elems : List Json)
  | obj (fields : List (String × Json))

/-- A Python exception, reduced to its class and message. `clientError`
stands for the exception classes raised by the AWS SDK clients. -/
inductive PyErr where
  | valueError (msg : String)
  | clientError (msg : String)
  | runtimeError (msg : String)
deriving DecidableEq

/-- Python `str(e)` on an exception: its message. -/
def PyErr.message : PyErr → String
  | .valueError m => m
  | .clientError m => m
  | .runtimeError m => m

/-- Whether an exception is a `RuntimeError` (the "generic runtime
failure" of the spec). -/
def PyErr.isRuntimeError : PyErr → Bool
  | .runtimeError _ => true
  | _ => false

/-- Python `x['k']` on a JSON value: key lookup when `x` is a dict,
failure otherwise. -/
def Json.getField : Json → String → Option Json
  | .obj fields, k => dget fields k
  | _, _ => none

/-!
## Response-field resolver (src/unnamed/part_000, `generate_response`,
lines 179-216)

Python source of the parsing step, applied to the JSON-decoded endpoint
response `result`:
```
if isinstance(result, list):
    return result[0]['generated_text']
elif 'generated_text' in result:
    return result['generated_text']
elif 'generation' in result:
    return result['generation']
else:
    raise RuntimeError("Unexpected response format")
```
The whole block sits in a `try`/`except Exception as e` that re-raises
every failure as `RuntimeError(f"Generation failed: {str(e)}")`; hence the
empty list (`IndexError`), a first element without the key (`KeyError`
or `TypeError`), and scalars (`TypeError` from `in`/indexing) all
surface as a `RuntimeError` as well.  The messages of those intermediate
exceptions are abbreviated here; only the fact that an error is raised
matters below. -/
def generate_response_resolve (result : Json) : Except PyErr Json :=
  match result with
  | .arr elems =>
      match elems with
      | [] =>
          .error (.runtimeError "Generation failed: list index out of range")
      | first :: _ =>
          match first.getField "generated_text" with
          | some t => .ok t
          | none => .error (.runtimeError "Generation failed: generated_text")
  | .obj fields =>
      match dget fields "generated_text" with
      | some t => .ok t
      | none =>
          match dget fields "generation" with
          | some t => .ok t
          | none =>
              .error (.runtimeError
                "Generation failed: Unexpected response format")
  | _ => .error (.runtimeError "Generation failed: unsupported response type")

/-- The three response shapes the resolver recognises, as described by
the spec: a list whose first element carries `generated_text`, a dict
with `generated_text`, or a dict with `generation`. -/
def matchesKnownShape : Json → Bool
  | .arr (first :: _) => (first.getField "generated_text").isSome
  | .arr [] => false
  | .obj fields =>
      (dget fields "generated_text").isSome || (dget fields "generation").isSome
  | _ => false

/-!
## Retrieval with metadata filter (src/unnamed/part_000,
`retrieve_from_bedrock`, lines 137-157)

Python source:
```
def retrieve_from_bedrock(query):
    try:
        response = bedrock_agent_runtime.retrieve(...)
        return [result['content']['text'] for result in response['retrievalResults']]
    except Exception as e:
        raise RuntimeError(f"Bedrock retrieval failed: {str(e)}")
```
The Bedrock client is the oracle `svc`; the embedded function also
returns the list of queries it sent, making the single call visible. -/

/-- `result['content']` of one retrieval result. -/
structure RetrievalContent where
  text : String

/-- One element of `response['retrievalResults']`. -/
structure RetrievalResult where
  content : RetrievalContent

/-- The response of the `retrieve` operation. -/
structure RetrieveResponse where
  retrievalResults : List RetrievalResult

/-- `retrieve_from_bedrock`, over the Bedrock client oracle `svc`. -/
def retrieve_from_bedrock (svc : String → Except PyErr RetrieveResponse)
    (query : String) : Except PyErr (List String) × List String :=
  match svc query with
  | .ok response =>
      (.ok (response.retrievalResults.map (fun result => result.content.text)),
       [query])
  | .error e =>
      (.error (.runtimeError ("Bedrock retrieval failed: " ++ e.message)),
       [query])

/-!
## Retrieve-and-generate with conditional guardrails (Lab 2 notebook,
`retrieve_and_generate_with_conditional_guardrails`, lines 109-183)

The request configuration is built exactly as in the source; Python
truthiness tests (`if metadata_filter:`, `if not guardrail_id:`,
`if guardrail_version:`) are modelled faithfully: an optional string is
truthy iff it is present and non-empty, and a metadata filter object
(a non-empty dict by construction) is truthy iff present. -/

/-- Python truthiness of an optional string argument (default `None`):
`None` and the empty string are falsy. -/
def pyTruthyStr : Option String → Bool
  | none => false
  | some s => s ≠ ""

/-- The `vectorSearchConfiguration` dict. -/
structure VectorSearchConfiguration where
  numberOfResults : Nat
  filter : Option OneGroupFilter
deriving DecidableEq

/-- The `retrievalConfiguration` dict. -/
structure RetrievalConfiguration where
  vectorSearchConfiguration : VectorSearchConfiguration
deriving DecidableEq

/-- The `promptTemplate` dict. -/
structure PromptTemplate where
  textPromptTemplate : String
deriving DecidableEq

/-- The `guardrailConfiguration` dict (`guardrailVersion` is added only
when a truthy version is supplied). -/
structure GuardrailConfiguration where
  guardrailId : String
  guardrailVersion : Option String
deriving DecidableEq

/-- The `generationConfiguration` dict. -/
structure GenerationConfiguration where
  promptTemplate : PromptTemplate
  guardrailConfiguration : Option GuardrailConfiguration
deriving DecidableEq

/-- The `kb_config` dict passed as `knowledgeBaseConfiguration`. -/
structure KbConfig where
  knowledgeBaseId : String
  modelArn : String
  retrievalConfiguration : RetrievalConfiguration
  generationConfiguration : GenerationConfiguration
deriving DecidableEq

/-- The text prompt template literal from the source. -/
def labTwoPromptTemplate : String :=
  "Answer the following question based on the context:\n$search_results$\n\nQuestion: \x7bquestion\x7d"

/-- Construction of `kb_config` inside
`retrieve_and_generate_with_conditional_guardrails` (Lab 2 notebook,
lines 133-183), up to the point where the request is issued.  A raised
`ValueError` is the `Except.error` case. -/
def build_kb_config (knowledge_base_id model_arn : String)
    (metadata_filter : Option OneGroupFilter) (use_guardrails : Bool)
    (guardrail_id guardrail_version : Option String) :
    Except PyErr KbConfig :=
  let kb_config : KbConfig :=
    { knowledgeBaseId := knowledge_base_id
      modelArn := model_arn
      retrievalConfiguration :=
        { vectorSearchConfiguration :=
            { numberOfResults := 5
              filter := match metadata_filter with
                | some f => some f
                | none => none } }
      generationConfiguration :=
        { promptTemplate := { textPromptTemplate := labTwoPromptTemplate }
          guardrailConfiguration := none } }
  if use_guardrails then
    if ¬ (pyTruthyStr guardrail_id) then
      .error (.valueError "guardrail_id is required when use_guardrails is True")
    else
      let guardrail_config : GuardrailConfiguration :=
        { guardrailId := guardrail_id.getD ""
          guardrailVersion :=
            if pyTruthyStr guardrail_version then guardrail_version else none }
      .ok { kb_config with
              generationConfiguration :=
                { kb_config.generationConfiguration with
                    guardrailConfiguration := some guardrail_config } }
  else
    .ok kb_config

/-- The body of the `retrieve_and_generate` request. -/
structure RGRequest where
  inputText : String
  configType : String
  knowledgeBaseConfiguration : KbConfig

/-- The full `retrieve_and_generate_with_conditional_guardrails`, over
the Bedrock client oracle `svc`.  There is no `try`/`except` in the
source: a service error propagates to the caller unchanged, and the
successful response is returned unchanged (its type `ρ` is opaque
here).  The issued requests are returned alongside. -/
def retrieve_and_generate_with_conditional_guardrails {ρ : Type}
    (svc : RGRequest → Except PyErr ρ) (query : String)
    (knowledge_base_id model_arn : String)
    (metadata_filter : Option OneGroupFilter) (use_guardrails : Bool)
    (guardrail_id guardrail_version : Option String) :
    Except PyErr ρ × List RGRequest :=
  match build_kb_config knowledge_base_id model_arn metadata_filter
      use_guardrails guardrail_id guardrail_version with
  | .error e => (.error e, [])
  | .ok kb_config =>
      let request : RGRequest :=
        { inputText := query
          configType := "KNOWLEDGE_BASE"
          knowledgeBaseConfiguration := kb_config }
      (svc request, [request])

/-!
## Multi-model sweep driver (Lab 4 notebook, lines 199-216)

Python source:
```
rag_response_dict = {}
for inference_model in inference_models:
    inferencer = InferencerProviderFactory.create_inferencer_provider(...)
    responses = rag_with_flotorch(exp_config_data, vector_storage, reranker, inferencer, questions)
    rag_response_dict[inference_model] = responses
```
`rag_with_flotorch` (together with the inferencer it is given) is the
external generation helper, modelled as the oracle `gen`; a raised
exception is its `Except.error` case.  There is no `try`/`except` in the
loop, so an error stops the loop: the dictionary built so far survives
(it is a notebook global) and the models after the failing one are never
processed.  The embedding returns the dictionary, the escaping error (if
any), and the list of `(model, question-set)` calls made to the helper,
in order. -/
def rag_sweep_go {Q ρ ε : Type} (gen : String → List Q → Except ε ρ)
    (questions : List Q) :
    List String → List (String × ρ) → List (String × List Q) →
    (List (String × ρ) × Option ε) × List (String × List Q)
  | [], rag_response_dict, calls => ((rag_response_dict, none), calls)
  | inference_model :: rest, rag_response_dict, calls =>
      match gen inference_model questions with
      | .ok responses =>
          rag_sweep_go gen questions rest
            (dset rag_response_dict inference_model responses)
            (calls ++ [(inference_model, questions)])
      | .error e =>
          ((rag_response_dict, some e), calls ++ [(inference_model, questions)])

/-- The sweep loop started on the empty dictionary. -/
def rag_sweep {Q ρ ε : Type} (gen : String → List Q → Except ε ρ)
    (questions : List Q) (inference_models : List String) :
    (List (String × ρ) × Option ε) × List (String × List Q) :=
  rag_sweep_go gen questions inference_models [] []

/-!
## Prompt formatter (src/unnamed/part_000, `format_prompt`, lines 160-176)

Python source:
```
def format_prompt(query, context):
    system_prompt = f"""Use the following context to answer the question. ...
        Context:
        {" ".join(context)}"
    """
    return f"""
        <|begin_of_text|>
        <|start_header_id|>system<|end_header_id|>
        {system_prompt}
        <|start_header_id|>user<|end_header_id|>
        Question: {query}
        <|start_header_id|>assistant<|end_header_id|>
        """.strip()
```
The trailing `.strip()` removes the template's constant leading
`"\n        "` and constant trailing `"\n        "` (stripping stops at
the adjacent non-whitespace template text on both ends, independently of
`query` and `context`), so the result is the concatenation below. -/

/-- Constant template text before the joined context. -/
def promptPrefix : String :=
  "<|begin_of_text|>\n        <|start_header_id|>system<|end_header_id|>\n        Use the following context to answer the question. If you don\x27t know the answer, say \x27I don\x27t know\x27.\n        Context:\n        "

/-- Constant template text between the joined context and the query (the
closing quote and trailing whitespace of `system_prompt`, then the user
turn header). -/
def promptUserSep : String :=
  "\"\n    \n        <|start_header_id|>user<|end_header_id|>\n        Question: "

/-- Constant template text after the query. -/
def promptSuffix : String :=
  "\n        <|start_header_id|>assistant<|end_header_id|>"

/-- `format_prompt` from the source. -/
def format_prompt (query : String) (context : List String) : String :=
  promptPrefix ++ String.intercalate " " context ++ promptUserSep ++ query
    ++ promptSuffix

/-!
## JSON serialization (Lab 4 notebook, lines 232-238)

Python source:
```
with open(filename, 'w', encoding='utf-8') as f:
    json.dump(rag_response_dict, f, indent=4, ensure_ascii=False)
```
`json.dump` is Python standard-library code, modelled here for the
fragment used (strings, integers, arrays, objects; characters of the
Basic Multilingual Plane).  With `indent` given, `json.dump` separates
items with `",\n"` plus indentation and keys from values with `": "`.
With `ensure_ascii=False` only `"`, `\`, and control characters are
escaped; all other characters (in particular all non-ASCII characters)
are written literally.  With `ensure_ascii=True` every character above
`~` would be written as a `\uXXXX` escape instead. -/

/-- One lower-case hexadecimal digit. -/
def jsonHexDigit (n : Nat) : Char :=
  if n < 10 then Char.ofNat (48 + n) else Char.ofNat (87 + n)

/-- Four-digit hexadecimal rendering used by `\uXXXX` escapes. -/
def jsonHex4 (n : Nat) : List Char :=
  [jsonHexDigit (n / 4096 % 16), jsonHexDigit (n / 256 % 16),
   jsonHexDigit (n / 16 % 16), jsonHexDigit (n % 16)]

/-- The escape of one character inside a JSON string literal. -/
def jsonEscapeChar (ensure_ascii : Bool) (c : Char) : List Char :=
  if c = '"' then ['\\', '"']
  else if c = '\\' then ['\\', '\\']
  else if c = '\n' then ['\\', 'n']
  else if c = '\t' then ['\\', 't']
  else if c = '\r' then ['\\', 'r']
  else if c = '\x08' then ['\\', 'b']
  else if c = '\x0c' then ['\\', 'f']
  else if c.toNat < 32 then '\\' :: 'u' :: jsonHex4 c.toNat
  else if ensure_ascii && 126 < c.toNat then '\\' :: 'u' :: jsonHex4 c.toNat
  else [c]

/-- A JSON string literal: quotes around the escaped characters. -/
def jsonQuoteString (ensure_ascii : Bool) (s : String) : List Char :=
  '"' :: (s.data.map (jsonEscapeChar ensure_ascii)).flatten ++ ['"']

/-- Indentation: `n` spaces. -/
def jsonPad (n : Nat) : List Char :=
  List.replicate n ' '

mutual

/-- Serialization of one JSON value at nesting level `lvl`. -/
def jsonDump (ensure_ascii : Bool) (indent lvl : Nat) : Json → List Char
  | .str s => jsonQuoteString ensure_ascii s
  | .num n => (toString n).data
  | .arr [] => ['[', ']']
  | .arr (e :: es) =>
      '[' :: '\n' ::
        (jsonPad (indent * (lvl + 1))
          ++ jsonDump ensure_ascii indent (lvl + 1) e
          ++ jsonDumpArrRest ensure_ascii indent (lvl + 1) es
          ++ '\n' :: jsonPad (indent * lvl)) ++ [']']
  | .obj [] => [Char.ofNat 123, Char.ofNat 125]
  | .obj ((k, v) :: fs) =>
      Char.ofNat 123 :: '\n' ::
        (jsonPad (indent * (lvl + 1))
          ++ jsonQuoteString ensure_ascii k
          ++ ':' :: ' ' :: jsonDump ensure_ascii indent (lvl + 1) v
          ++ jsonDumpObjRest ensure_ascii indent (lvl + 1) fs
          ++ '\n' :: jsonPad (indent * lvl)) ++ [Char.ofNat 125]

/-- The remaining array items, each preceded by `",\n"` and indentation. -/
def jsonDumpArrRest (ensure_ascii : Bool) (indent lvl : Nat) :
    List Json → List Char
  | [] => []
  | e :: es =>
      ',' :: '\n' :: jsonPad (indent * lvl)
        ++ jsonDump ensure_ascii indent lvl e
        ++ jsonDumpArrRest ensure_ascii indent lvl es

/-- The remaining object items, each preceded by `",\n"` and indentation. -/
def jsonDumpObjRest (ensure_ascii : Bool) (indent lvl : Nat) :
    List (String × Json) → List Char
  | [] => []
  | (k, v) :: fs =>
      ',' :: '\n' :: jsonPad (indent * lvl)
        ++ jsonQuoteString ensure_ascii k
        ++ ':' :: ' ' :: jsonDump ensure_ascii indent lvl v
        ++ jsonDumpObjRest ensure_ascii indent lvl fs

end

mutual

/-- All strings occurring in a JSON value (keys included). -/
def jsonStrings : Json → List String
  | .str s => [s]
  | .num _ => []
  | .arr es => jsonStringsList es
  | .obj fs => jsonStringsFields fs

/-- All strings occurring in a list of JSON values. -/
def jsonStringsList : List Json → List String
  | [] => []
  | e :: es => jsonStrings e ++ jsonStringsList es

/-- All strings occurring in an object's fields. -/
def jsonStringsFields : List (String × Json) → List String
  | [] => []
  | (k, v) :: fs => k :: (jsonStrings v ++ jsonStringsFields fs)

end

/-- The "Write the results to a JSON file" cell of the Lab 4 notebook:
the characters written to disk by
`json.dump(rag_response_dict, f, indent=4, ensure_ascii=False)`.
Each model's per-question result records (opaque JSON values returned by
the external RAG helper) are serialized as a JSON array under the
model's key. -/
def write_results_content (rag_response_dict : List (String × List Json)) :
    List Char :=
  jsonDump false 4 0
    (Json.obj (rag_response_dict.map (fun p => (p.1, Json.arr p.2))))

/-!
## Theorems
-/

/-- C1: evaluation of the cost-and-latency merge pass at a concrete
input, exhibiting the cross-model leak.  `loaded_responses` holds
inference data for the two knowledge-base keys `"kbA"` and `"kbB"`, the
external metric computation tags each cost figure with the data it came
from (`1` for `"kbA"`, `2` for `"kbB"`), and the record map initially
holds each key's own accuracy metrics.  Because every iteration reads
and writes `final_evaluation[model]` — with `model` the ambient name
`"kbA"` here, not the loop key — the final `"kbA"` record carries the
cost figure `2` computed from `"kbB"`'s inference data, and `"kbB"`'s
record receives no cost figure at all: cost/latency fields computed from
one model's data end up in another model's record, refuting the claimed
invariant (the code slip the spec flags in its Design Notes). -/
theorem cost_latency_merge_cross_model_leak :
    cost_latency_merge (fun d => [("inference_cost", d)]) "kbA"
        [("kbA", (1 : Int)), ("kbB", 2)]
        [("kbA", [("correctness", 10)]), ("kbB", [("correctness", 20)])]
      = some [("kbA", [("correctness", 10), ("inference_cost", 2)]),
              ("kbB", [("correctness", 20)])] := by
  rfl

/-- C2: the response-field resolver of `generate_response`.  A list
whose first element carries `generated_text` yields that text; a dict
with `generated_text` yields that value; a dict without `generated_text`
but with `generation` yields that value; the two concrete examples of
the spec evaluate as stated; the empty dict raises; and every value
matching none of the three recognised shapes raises. -/
theorem generate_response_resolve_spec :
    (∀ (fields : List (String × Json)) (t : Json) (rest : List Json),
        dget fields "generated_text" = some t →
        generate_response_resolve (.arr (.obj fields :: rest)) = .ok t) ∧
    (∀ (fields : List (String × Json)) (t : Json),
        dget fields "generated_text" = some t →
        generate_response_resolve (.obj fields) = .ok t) ∧
    (∀ (fields : List (String × Json)) (t : Json),
        dget fields "generated_text" = none →
        dget fields "generation" = some t →
        generate_response_resolve (.obj fields) = .ok t) ∧
    generate_response_resolve (.obj [("generation", .str "X")])
      = .ok (.str "X") ∧
    generate_response_resolve (.arr [.obj [("generated_text", .str "Y")]])
      = .ok (.str "Y") ∧
    (∃ e, generate_response_resolve (.obj []) = .error e) ∧
    (∀ j, matchesKnownShape j = false →
        ∃ e, generate_response_resolve j = .error e) := by
  refine ⟨?_, ?_, ?_, rfl, rfl, ⟨_, rfl⟩, ?_⟩
  · intro fields t rest h
    simp [generate_response_resolve, Json.getField, h]
  · intro fields t h
    simp [generate_response_resolve, h]
  · intro fields t h1 h2
    simp [generate_response_resolve, h1, h2]
  · intro j hj
    cases j with
    | str s => exact ⟨_, rfl⟩
    | num n => exact ⟨_, rfl⟩
    | arr elems =>
        cases elems with
        | nil => exact ⟨_, rfl⟩
        | cons first rest =>
            simp [matchesKnownShape] at hj
            exact ⟨.runtimeError "Generation failed: generated_text",
              by simp [generate_response_resolve, hj]⟩
    | obj fields =>
        simp [matchesKnownShape] at hj
        exact ⟨.runtimeError "Generation failed: Unexpected response format",
          by simp [generate_response_resolve, hj.1, hj.2]⟩

/-- C2 witness: the list-shape clause applied at a concrete response. -/
theorem generate_response_resolve_spec_witness :
    generate_response_resolve (.arr [.obj [("generated_text", .str "Z")]])
      = .ok (.str "Z") :=
  generate_response_resolve_spec.1 [("generated_text", Json.str "Z")]
    (Json.str "Z") [] rfl

/-- C7: a filter built from a list of (key, value) equality constraints
holds exactly one `equals` clause per input pair, in order, each clause
carrying that pair's key and value, all under the single top-level
`andAll` node (the structure has no other nesting); and the source's
literal `one_group_filter` is exactly the builder applied to its two
pairs. -/
theorem one_group_filter_build_spec :
    (∀ pairs : List (String × FilterValue),
      (build_one_group_filter pairs).andAll
          = pairs.map (fun p => { equals := { key := p.1, value := p.2 } }) ∧
      (build_one_group_filter pairs).andAll.length = pairs.length ∧
      (∀ (k : String) (v : FilterValue),
        ({ equals := { key := k, value := v } } : EqualsClause)
            ∈ (build_one_group_filter pairs).andAll ↔ (k, v) ∈ pairs)) ∧
    one_group_filter
      = build_one_group_filter
          [("docType", .str "10K Report"), ("year", .num 2023)] := by
  refine ⟨fun pairs => ⟨rfl, by simp [build_one_group_filter], ?_⟩, rfl⟩
  intro k v
  simp only [build_one_group_filter, List.mem_map]
  constructor
  · rintro ⟨p, hp, heq⟩
    cases p
    simp only [EqualsClause.mk.injEq, FilterEquals.mk.injEq] at heq
    obtain ⟨h1, h2⟩ := heq
    subst h1
    subst h2
    exact hp
  · intro h
    exact ⟨(k, v), h, rfl⟩

/-- Whether an `Except` computation raised. -/
def exceptIsError {ε α : Type} : Except ε α → Bool
  | .error _ => true
  | .ok _ => false

/-- Helper: the full shape of a successfully built `kb_config`. -/
lemma build_kb_config_ok_shape (kb arn : String) (mf : Option OneGroupFilter)
    (ug : Bool) (gid gver : Option String) (c : KbConfig)
    (h : build_kb_config kb arn mf ug gid gver = .ok c) :
    c = { knowledgeBaseId := kb
          modelArn := arn
          retrievalConfiguration :=
            { vectorSearchConfiguration := { numberOfResults := 5, filter := mf } }
          generationConfiguration :=
            { promptTemplate := { textPromptTemplate := labTwoPromptTemplate }
              guardrailConfiguration :=
                if ug then
                  some { guardrailId := gid.getD ""
                         guardrailVersion :=
                           if pyTruthyStr gver then gver else none }
                else none } } := by
  cases ug with
  | false =>
      cases mf <;> simp [build_kb_config] at h <;> exact h.symm
  | true =>
      cases hg : pyTruthyStr gid with
      | false => simp [build_kb_config, hg] at h
      | true =>
          cases mf <;> simp [build_kb_config, hg] at h <;> exact h.symm

/-- C9 counterexample: with `use_guardrails=True` and
`guardrail_id=""` — an id that is supplied, not absent — the function
still raises the `ValueError`, because `if not guardrail_id:` tests
Python truthiness and the empty string is falsy.  This refutes the
claimed "raises ... if and only if ... guardrail_id is absent". -/
theorem build_kb_config_raises_on_empty_id :
    build_kb_config "kb" "arn" none true (some "") none
        = .error (.valueError "guardrail_id is required when use_guardrails is True")
      ∧ (some "" : Option String) ≠ none := by
  exact ⟨rfl, by decide⟩

/-- C9 (amended): the builder raises the `ValueError` (before issuing
any request) iff `use_guardrails` is true and `guardrail_id` is absent
or empty (Python-falsy); on success the configuration carries a
guardrail configuration exactly when `use_guardrails` is true, with the
given id, and with a `guardrailVersion` field exactly when a non-empty
`guardrail_version` was provided; with `use_guardrails=False` no
guardrail configuration appears regardless of the other arguments; and
when the builder raises, the full function issues no request. -/
theorem build_kb_config_guardrail_spec :
    ∀ (kb arn : String) (mf : Option OneGroupFilter) (ug : Bool)
      (gid gver : Option String),
      (exceptIsError (build_kb_config kb arn mf ug gid gver)
          = (ug && !(pyTruthyStr gid))) ∧
      (∀ c, build_kb_config kb arn mf ug gid gver = .ok c →
        c.generationConfiguration.guardrailConfiguration
          = if ug then
              some { guardrailId := gid.getD ""
                     guardrailVersion :=
                       if pyTruthyStr gver then gver else none }
            else none) ∧
      (ug = false →
        build_kb_config kb arn mf ug gid gver
          = .ok { knowledgeBaseId := kb
                  modelArn := arn
                  retrievalConfiguration :=
                    { vectorSearchConfiguration :=
                        { numberOfResults := 5, filter := mf } }
                  generationConfiguration :=
                    { promptTemplate :=
                        { textPromptTemplate := labTwoPromptTemplate }
                      guardrailConfiguration := none } }) ∧
      (∀ {ρ : Type} (svc : RGRequest → Except PyErr ρ) (query : String),
        exceptIsError (build_kb_config kb arn mf ug gid gver) = true →
        (retrieve_and_generate_with_conditional_guardrails svc query kb arn
            mf ug gid gver).2 = []) := by
  intro kb arn mf ug gid gver
  refine ⟨?_, ?_, ?_, ?_⟩
  · cases ug with
    | false => cases mf <;> simp [build_kb_config, exceptIsError]
    | true =>
        cases hg : pyTruthyStr gid with
        | false => cases mf <;> simp [build_kb_config, exceptIsError, hg]
        | true => cases mf <;> simp [build_kb_config, exceptIsError, hg]
  · intro c hc
    rw [build_kb_config_ok_shape kb arn mf ug gid gver c hc]
  · intro hug
    subst hug
    cases mf <;> simp [build_kb_config]
  · intro ρ svc query herr
    cases hb : build_kb_config kb arn mf ug gid gver with
    | error e =>
        simp [retrieve_and_generate_with_conditional_guardrails, hb]
    | ok c => rw [hb] at herr; simp [exceptIsError] at herr

/-- C9 witness: the amended characterisation applied at concrete
arguments. -/
theorem build_kb_config_guardrail_spec_witness :
    (exceptIsError (build_kb_config "kb" "m" none false none none)
        = (false && !(pyTruthyStr none))) ∧
    build_kb_config "kb" "m" none false none none
      = .ok { knowledgeBaseId := "kb"
              modelArn := "m"
              retrievalConfiguration :=
                { vectorSearchConfiguration :=
                    { numberOfResults := 5, filter := none } }
              generationConfiguration :=
                { promptTemplate :=
                    { textPromptTemplate := labTwoPromptTemplate }
                  guardrailConfiguration := none } } :=
  ⟨(build_kb_config_guardrail_spec "kb" "m" none false none none).1,
   (build_kb_config_guardrail_spec "kb" "m" none false none none).2.2.1 rfl⟩

/-- C10: supplying a metadata filter changes only the `filter` field of
the vector search configuration.  Two successful builds that differ only
in the presence of a filter agree on `knowledgeBaseId`, `modelArn`, the
result count (fixed at 5), and the whole generation configuration
(prompt template and guardrail part); the `filter` field holds the
supplied filter in the one and is absent in the other.  In general the
built `filter` field equals the `metadata_filter` argument, so it is
present exactly when a filter is provided. -/
theorem build_kb_config_filter_frame :
    (∀ (kb arn : String) (ug : Bool) (gid gver : Option String)
       (f : OneGroupFilter) (c1 c2 : KbConfig),
      build_kb_config kb arn (some f) ug gid gver = .ok c1 →
      build_kb_config kb arn none ug gid gver = .ok c2 →
      c1.knowledgeBaseId = c2.knowledgeBaseId ∧
      c1.modelArn = c2.modelArn ∧
      c1.retrievalConfiguration.vectorSearchConfiguration.numberOfResults = 5 ∧
      c2.retrievalConfiguration.vectorSearchConfiguration.numberOfResults = 5 ∧
      c1.generationConfiguration = c2.generationConfiguration ∧
      c1.retrievalConfiguration.vectorSearchConfiguration.filter = some f ∧
      c2.retrievalConfiguration.vectorSearchConfiguration.filter = none) ∧
    (∀ (kb arn : String) (mf : Option OneGroupFilter) (ug : Bool)
       (gid gver : Option String) (c : KbConfig),
      build_kb_config kb arn mf ug gid gver = .ok c →
      c.retrievalConfiguration.vectorSearchConfiguration.filter = mf) := by
  constructor
  · intro kb arn ug gid gver f c1 c2 h1 h2
    rw [build_kb_config_ok_shape kb arn (some f) ug gid gver c1 h1,
        build_kb_config_ok_shape kb arn none ug gid gver c2 h2]
    exact ⟨rfl, rfl, rfl, rfl, rfl, rfl, rfl⟩
  · intro kb arn mf ug gid gver c h
    rw [build_kb_config_ok_shape kb arn mf ug gid gver c h]

/-- C10 witness: the filter-presence clause applied at the source's own
literal filter. -/
theorem build_kb_config_filter_frame_witness :
    ({ knowledgeBaseId := "kb"
       modelArn := "m"
       retrievalConfiguration :=
         { vectorSearchConfiguration :=
             { numberOfResults := 5, filter := some one_group_filter } }
       generationConfiguration :=
         { promptTemplate := { textPromptTemplate := labTwoPromptTemplate }
           guardrailConfiguration := none } }
        : KbConfig).retrievalConfiguration.vectorSearchConfiguration.filter
      = some one_group_filter :=
  build_kb_config_filter_frame.2 "kb" "m" (some one_group_filter) false
    none none _ rfl

/-- C6 counterexample: a service failure inside
`retrieve_and_generate_with_conditional_guardrails` is not caught at the
call site — there is no `try`/`except` in the source — so the original
client error `"boom"` propagates unchanged to the caller instead of
being re-raised as a generic runtime failure. -/
theorem invoker_error_not_wrapped :
    (retrieve_and_generate_with_conditional_guardrails
        (fun _ => (Except.error (PyErr.clientError "boom") : Except PyErr Nat))
        "q" "kb" "arn" none false none none).1
      = .error (.clientError "boom")
    ∧ (PyErr.clientError "boom").isRuntimeError = false := by
  exact ⟨rfl, rfl⟩

/-- C6 (amended): `retrieve_from_bedrock` issues exactly one call,
catches every service error and re-raises it as a `RuntimeError`
carrying the original error's message, and on success returns the list
of chunk texts extracted from the response (a projection of the
response, not the raw response).  The Lab 2 invoker
`retrieve_and_generate_with_conditional_guardrails` issues at most one
call (none when the builder raises) and, once the configuration is
built, returns the service's result entirely unchanged — the successful
response as-is, and a service error propagated raw, without wrapping,
retry, or partial result. -/
theorem invoker_call_and_error_spec :
    (∀ (svc : String → Except PyErr RetrieveResponse) (query : String),
      (retrieve_from_bedrock svc query).2 = [query] ∧
      (∀ e, svc query = .error e →
        (retrieve_from_bedrock svc query).1
          = .error (.runtimeError ("Bedrock retrieval failed: " ++ e.message))) ∧
      (∀ r, svc query = .ok r →
        (retrieve_from_bedrock svc query).1
          = .ok (r.retrievalResults.map (fun result => result.content.text)))) ∧
    (∀ (ρ : Type) (svc : RGRequest → Except PyErr ρ) (query kb arn : String)
       (mf : Option OneGroupFilter) (ug : Bool) (gid gver : Option String),
      (retrieve_and_generate_with_conditional_guardrails svc query kb arn
          mf ug gid gver).2.length ≤ 1 ∧
      (∀ c, build_kb_config kb arn mf ug gid gver = .ok c →
        retrieve_and_generate_with_conditional_guardrails svc query kb arn
            mf ug gid gver
          = (svc { inputText := query
                   configType := "KNOWLEDGE_BASE"
                   knowledgeBaseConfiguration := c },
             [{ inputText := query
                configType := "KNOWLEDGE_BASE"
                knowledgeBaseConfiguration := c }]))) := by
  constructor
  · intro svc query
    refine ⟨?_, ?_, ?_⟩
    · cases h : svc query <;> simp [retrieve_from_bedrock, h]
    · intro e he
      simp [retrieve_from_bedrock, he]
    · intro r hr
      simp [retrieve_from_bedrock, hr]
  · intro ρ svc query kb arn mf ug gid gver
    cases hb : build_kb_config kb arn mf ug gid gver with
    | error e =>
        refine ⟨?_, ?_⟩
        · simp [retrieve_and_generate_with_conditional_guardrails, hb]
        · intro c hc
          cases hc
    | ok c0 =>
        refine ⟨?_, ?_⟩
        · simp [retrieve_and_generate_with_conditional_guardrails, hb]
        · intro c hc
          cases hc
          simp [retrieve_and_generate_with_conditional_guardrails, hb]

/-- C6 witness: the wrapping clause of `retrieve_from_bedrock` applied
to a concrete failing service. -/
theorem invoker_call_and_error_spec_witness :
    (retrieve_from_bedrock
        (fun _ => .error (.clientError "timeout")) "q").1
      = .error (.runtimeError
          ("Bedrock retrieval failed: "
            ++ (PyErr.clientError "timeout").message)) :=
  (invoker_call_and_error_spec.1
      (fun _ => .error (.clientError "timeout")) "q").2.1
    (PyErr.clientError "timeout") rfl

/-- Helper: lookup distributes over append. -/
lemma dget_append {κ ν : Type} [DecidableEq κ] (a b : List (κ × ν)) (k : κ) :
    dget (a ++ b) k = match dget a k with
      | some v => some v
      | none => dget b k := by
  induction a with
  | nil => simp [dget]
  | cons p rest ih =>
      obtain ⟨k', v⟩ := p
      by_cases h : k' = k <;> simp [dget, h, ih]

/-- Helper: setting an absent key appends the binding. -/
lemma dset_of_not_mem {κ ν : Type} [DecidableEq κ] (d : List (κ × ν))
    (k : κ) (v : ν) (h : dget d k = none) : dset d k v = d ++ [(k, v)] := by
  simp [dset, dmem, h]

/-- Helper: a key is bound iff it occurs among the keys. -/
lemma dget_isSome_iff_mem {κ ν : Type} [DecidableEq κ] (d : List (κ × ν))
    (k : κ) : (dget d k).isSome = true ↔ k ∈ d.map Prod.fst := by
  induction d with
  | nil => simp [dget]
  | cons p rest ih =>
      obtain ⟨k', v⟩ := p
      by_cases h : k' = k
      · subst h
        simp [dget]
      · have h2 : ¬ k = k' := fun he => h he.symm
        simp [dget, h, h2, ih]

/-- Helper: the sweep loop when every listed model's call succeeds. -/
lemma rag_sweep_go_all_ok {Q ρ ε : Type} (gen : String → List Q → Except ε ρ)
    (questions : List Q) :
    ∀ (models : List String) (acc : List (String × ρ))
      (calls : List (String × List Q)),
      models.Nodup →
      (∀ m, m ∈ models → ∃ r, gen m questions = .ok r) →
      (∀ m, m ∈ models → dget acc m = none) →
      ∃ d, rag_sweep_go gen questions models acc calls
            = ((d, none), calls ++ models.map (fun m => (m, questions)))
        ∧ d.map Prod.fst = acc.map Prod.fst ++ models
        ∧ (∀ m r, dget d m = some r →
            dget acc m = some r ∨ gen m questions = .ok r) := by
  intro models
  induction models with
  | nil =>
      intro acc calls _ _ _
      exact ⟨acc, by simp [rag_sweep_go], by simp, fun m r h => Or.inl h⟩
  | cons m rest ih =>
      intro acc calls hnd hok hacc
      obtain ⟨r, hr⟩ := hok m (List.mem_cons_self m rest)
      have haccm : dget acc m = none := hacc m (List.mem_cons_self m rest)
      have hset : dset acc m r = acc ++ [(m, r)] := dset_of_not_mem acc m r haccm
      have hnd' : rest.Nodup := (List.nodup_cons.mp hnd).2
      have hmnotin : m ∉ rest := (List.nodup_cons.mp hnd).1
      have hok' : ∀ m', m' ∈ rest → ∃ r', gen m' questions = .ok r' :=
        fun m' hm' => hok m' (List.mem_cons_of_mem m hm')
      have hacc' : ∀ m', m' ∈ rest → dget (acc ++ [(m, r)]) m' = none := by
        intro m' hm'
        rw [dget_append]
        rw [hacc m' (List.mem_cons_of_mem m hm')]
        have : m ≠ m' := fun he => hmnotin (he ▸ hm')
        simp [dget, this]
      obtain ⟨d, hgo, hkeys, hprop⟩ :=
        ih (acc ++ [(m, r)]) (calls ++ [(m, questions)]) hnd' hok' hacc'
      refine ⟨d, ?_, ?_, ?_⟩
      · rw [rag_sweep_go, hr]
        show rag_sweep_go gen questions rest (dset acc m r)
          (calls ++ [(m, questions)]) = _
        rw [hset, hgo]
        simp
      · rw [hkeys]
        simp
      · intro m' r' h'
        rcases hprop m' r' h' with hleft | hright
        · rw [dget_append] at hleft
          cases hcase : dget acc m' with
          | some v => rw [hcase] at hleft; exact Or.inl hleft
          | none =>
              rw [hcase] at hleft
              by_cases hm : m = m'
              · subst hm
                simp [dget] at hleft
                subst hleft
                exact Or.inr hr
              · simp [dget, hm] at hleft
        · exact Or.inr hright

/-- Helper: the sweep loop when the calls succeed up to a failing model:
the loop stops at the failure, keeping what was built so far. -/
lemma rag_sweep_go_until_error {Q ρ ε : Type}
    (gen : String → List Q → Except ε ρ) (questions : List Q) (e : ε) :
    ∀ (before : List String) (failing : String) (after : List String)
      (acc : List (String × ρ)) (calls : List (String × List Q)),
      (before ++ failing :: after).Nodup →
      (∀ m, m ∈ before → ∃ r, gen m questions = .ok r) →
      gen failing questions = .error e →
      (∀ m, m ∈ before → dget acc m = none) →
      ∃ d, rag_sweep_go gen questions (before ++ failing :: after) acc calls
            = ((d, some e),
               calls ++ (before ++ [failing]).map (fun m => (m, questions)))
        ∧ d.map Prod.fst = acc.map Prod.fst ++ before
        ∧ (∀ m r, dget d m = some r →
            dget acc m = some r ∨ gen m questions = .ok r) := by
  intro before
  induction before with
  | nil =>
      intro failing after acc calls _ _ hfail _
      refine ⟨acc, ?_, by simp, fun m r h => Or.inl h⟩
      rw [List.nil_append, rag_sweep_go, hfail]
      simp
  | cons m rest ih =>
      intro failing after acc calls hnd hok hfail hacc
      obtain ⟨r, hr⟩ := hok m (List.mem_cons_self m rest)
      have haccm : dget acc m = none := hacc m (List.mem_cons_self m rest)
      have hset : dset acc m r = acc ++ [(m, r)] := dset_of_not_mem acc m r haccm
      rw [List.cons_append] at hnd
      have hnd' : (rest ++ failing :: after).Nodup := (List.nodup_cons.mp hnd).2
      have hmnotin : m ∉ rest ++ failing :: after := (List.nodup_cons.mp hnd).1
      have hok' : ∀ m', m' ∈ rest → ∃ r', gen m' questions = .ok r' :=
        fun m' hm' => hok m' (List.mem_cons_of_mem m hm')
      have hacc' : ∀ m', m' ∈ rest → dget (acc ++ [(m, r)]) m' = none := by
        intro m' hm'
        rw [dget_append]
        rw [hacc m' (List.mem_cons_of_mem m hm')]
        have : m ≠ m' := fun he =>
          hmnotin (he ▸ List.mem_append_left _ hm')
        simp [dget, this]
      obtain ⟨d, hgo, hkeys, hprop⟩ :=
        ih failing after (acc ++ [(m, r)]) (calls ++ [(m, questions)])
          hnd' hok' hfail hacc'
      refine ⟨d, ?_, ?_, ?_⟩
      · rw [List.cons_append, rag_sweep_go, hr]
        show rag_sweep_go gen questions (rest ++ failing :: after)
          (dset acc m r) (calls ++ [(m, questions)]) = _
        rw [hset, hgo]
        simp
      · rw [hkeys]
        simp
      · intro m' r' h'
        rcases hprop m' r' h' with hleft | hright
        · rw [dget_append] at hleft
          cases hcase : dget acc m' with
          | some v => rw [hcase] at hleft; exact Or.inl hleft
          | none =>
              rw [hcase] at hleft
              by_cases hm : m = m'
              · subst hm
                simp [dget] at hleft
                subst hleft
                exact Or.inr hr
              · simp [dget, hm] at hleft
        · exact Or.inr hright

/-- C4: given a list of (distinct) model identifiers and a question set,
when every model's call succeeds the sweep driver produces a mapping
whose keys are exactly the input models in input order, each bound to
the result list the generation helper returned for that model, and the
helper is invoked exactly once per (model, question-set) pair, in list
order. -/
theorem rag_sweep_success_spec :
    ∀ {Q ρ ε : Type} (gen : String → List Q → Except ε ρ)
      (questions : List Q) (inference_models : List String),
      inference_models.Nodup →
      (∀ m, m ∈ inference_models → ∃ r, gen m questions = .ok r) →
      ∃ d, rag_sweep gen questions inference_models
            = ((d, none), inference_models.map (fun m => (m, questions)))
        ∧ d.map Prod.fst = inference_models
        ∧ (∀ m r, dget d m = some r → gen m questions = .ok r)
        ∧ (∀ m, m ∈ inference_models → (dget d m).isSome = true) := by
  intro Q ρ ε gen questions models hnd hok
  obtain ⟨d, hgo, hkeys, hprop⟩ :=
    rag_sweep_go_all_ok gen questions models [] [] hnd hok (by simp [dget])
  refine ⟨d, by simpa [rag_sweep] using hgo, by simpa using hkeys, ?_, ?_⟩
  · intro m r h
    rcases hprop m r h with hl | hr
    · simp [dget] at hl
    · exact hr
  · intro m hm
    rw [dget_isSome_iff_mem, hkeys]
    simpa using hm

/-- C4 witness: the sweep applied to two concrete models with a total
generation helper. -/
theorem rag_sweep_success_spec_witness :
    (rag_sweep (fun m (_ : List String) =>
        (Except.ok [m] : Except String (List String))) ["q1"] ["m1", "m2"]).1.2
      = none
    ∧ (rag_sweep (fun m (_ : List String) =>
        (Except.ok [m] : Except String (List String))) ["q1"] ["m1", "m2"]).2
      = [("m1", ["q1"]), ("m2", ["q1"])] := by
  obtain ⟨d, h1, -, -, -⟩ :=
    rag_sweep_success_spec
      (fun m (_ : List String) => (Except.ok [m] : Except String (List String)))
      ["q1"] ["m1", "m2"] (by decide) (fun m _ => ⟨[m], rfl⟩)
  exact ⟨by rw [h1], by rw [h1]; rfl⟩

/-- C3 counterexample: with two models where the first model's call
fails, the sweep aborts before ever calling the second model, whose
result list is absent from the output mapping — refuting "a failure on
one model's pass still leaves every other model's result list present
in the output mapping". -/
theorem rag_sweep_drops_later_models :
    rag_sweep (fun m (_ : List String) =>
        if m = "m1" then (Except.error "boom" : Except String (List String))
        else .ok ["ans"]) ["q1"] ["m1", "m2"]
      = (([], some "boom"), [("m1", ["q1"])])
    ∧ dget (rag_sweep (fun m (_ : List String) =>
        if m = "m1" then (Except.error "boom" : Except String (List String))
        else .ok ["ans"]) ["q1"] ["m1", "m2"]).1.1 "m2" = none := by
  exact ⟨rfl, rfl⟩

/-- C3 (amended): sweep aggregation preserves the input model order, and
when every call succeeds no model's results are dropped (that case is
`rag_sweep_success_spec`).  When one model's call fails, the loop aborts
at the failure: the models before the failing one keep their result
lists (in input order), the helper is never invoked for the models after
the failing one, and their results are absent from the mapping. -/
theorem rag_sweep_failure_spec :
    ∀ {Q ρ ε : Type} (gen : String → List Q → Except ε ρ)
      (questions : List Q) (before : List String) (failing : String)
      (after : List String) (e : ε),
      (before ++ failing :: after).Nodup →
      (∀ m, m ∈ before → ∃ r, gen m questions = .ok r) →
      gen failing questions = .error e →
      ∃ d, rag_sweep gen questions (before ++ failing :: after)
            = ((d, some e),
               (before ++ [failing]).map (fun m => (m, questions)))
        ∧ d.map Prod.fst = before
        ∧ (∀ m r, dget d m = some r → gen m questions = .ok r)
        ∧ (∀ m, m ∈ before → (dget d m).isSome = true)
        ∧ (∀ m, m ∈ after → dget d m = none) := by
  intro Q ρ ε gen questions before failing after e hnd hok hfail
  obtain ⟨d, hgo, hkeys, hprop⟩ :=
    rag_sweep_go_until_error gen questions e before failing after [] []
      hnd hok hfail (by simp [dget])
  have hkeys' : d.map Prod.fst = before := by simpa using hkeys
  refine ⟨d, by simpa [rag_sweep] using hgo, hkeys', ?_, ?_, ?_⟩
  · intro m r h
    rcases hprop m r h with hl | hr
    · simp [dget] at hl
    · exact hr
  · intro m hm
    rw [dget_isSome_iff_mem, hkeys']
    exact hm
  · intro m hm
    have hnotin : m ∉ before := by
      intro hmem
      have := List.disjoint_of_nodup_append hnd
      exact this hmem (List.mem_cons_of_mem failing hm)
    cases hcase : dget d m with
    | none => rfl
    | some v =>
        exfalso
        apply hnotin
        rw [← hkeys', ← dget_isSome_iff_mem]
        simp [hcase]

/-- C3 witness: the amended statement applied to a concrete sweep in
which the second of three models fails. -/
theorem rag_sweep_failure_spec_witness :
    (rag_sweep (fun m (_ : List String) =>
        if m = "mf" then (Except.error "boom" : Except String (List String))
        else .ok [m]) ["q1"] (["m0"] ++ "mf" :: ["m2"])).1.2 = some "boom"
    ∧ (rag_sweep (fun m (_ : List String) =>
        if m = "mf" then (Except.error "boom" : Except String (List String))
        else .ok [m]) ["q1"] (["m0"] ++ "mf" :: ["m2"])).2
      = [("m0", ["q1"]), ("mf", ["q1"])] := by
  obtain ⟨d, h1, -, -, -, -⟩ :=
    rag_sweep_failure_spec
      (fun m (_ : List String) =>
        if m = "mf" then (Except.error "boom" : Except String (List String))
        else .ok [m])
      ["q1"] ["m0"] "mf" ["m2"] "boom" (by decide)
      (fun m hm => ⟨[m], by
        have : m = "m0" := List.mem_singleton.mp hm
        subst this
        rfl⟩)
      rfl
  exact ⟨by rw [h1], by rw [h1]; rfl⟩

/-- Helper: with `ensure_ascii=False`, a character above `~` is not
escaped at all. -/
lemma jsonEscapeChar_eq_self (c : Char) (h : 126 < c.toNat) :
    jsonEscapeChar false c = [c] := by
  have h1 : c ≠ '"' := fun he => absurd (he ▸ h) (by decide)
  have h2 : c ≠ '\\' := fun he => absurd (he ▸ h) (by decide)
  have h3 : c ≠ '\n' := fun he => absurd (he ▸ h) (by decide)
  have h4 : c ≠ '\t' := fun he => absurd (he ▸ h) (by decide)
  have h5 : c ≠ '\r' := fun he => absurd (he ▸ h) (by decide)
  have h6 : c ≠ '\x08' := fun he => absurd (he ▸ h) (by decide)
  have h7 : c ≠ '\x0c' := fun he => absurd (he ▸ h) (by decide)
  have h8 : ¬ (c.toNat < 32) := by omega
  simp [jsonEscapeChar, h1, h2, h3, h4, h5, h6, h7, h8]

/-- Helper: with `ensure_ascii=False`, every character of the string
that lies above `~` appears literally in its JSON string literal. -/
lemma jsonQuoteString_keeps_nonascii (s : String) (c : Char)
    (hcs : c ∈ s.data) (h : 126 < c.toNat) :
    c ∈ jsonQuoteString false s := by
  have h1 : c ∈ (s.data.map (jsonEscapeChar false)).flatten :=
    List.mem_flatten.mpr
      ⟨[c], List.mem_map.mpr ⟨c, hcs, jsonEscapeChar_eq_self c h⟩,
        List.mem_singleton.mpr rfl⟩
  simp only [jsonQuoteString, List.mem_cons, List.mem_append]
  tauto

mutual

/-- Helper: non-ASCII characters of any string inside a JSON value
survive its `ensure_ascii=False` serialization. -/
def jsonDump_keeps_nonascii (c : Char) (hc : 126 < c.toNat) :
    (j : Json) → (ind lvl : Nat) → (s : String) → s ∈ jsonStrings j →
      c ∈ s.data → c ∈ jsonDump false ind lvl j
  | .str _, _, _, s, hs, hcs => by
      simp only [jsonStrings, List.mem_singleton] at hs
      subst hs
      simpa [jsonDump] using jsonQuoteString_keeps_nonascii _ c hcs hc
  | .num _, _, _, s, hs, _ => by simp [jsonStrings] at hs
  | .arr [], _, _, s, hs, _ => by simp [jsonStrings, jsonStringsList] at hs
  | .arr (e :: es), ind, lvl, s, hs, hcs => by
      simp only [jsonStrings, jsonStringsList, List.mem_append] at hs
      simp only [jsonDump, List.mem_cons, List.mem_append]
      rcases hs with hs | hs
      · have := jsonDump_keeps_nonascii c hc e ind (lvl + 1) s hs hcs
        tauto
      · have := jsonDumpArrRest_keeps_nonascii c hc es ind (lvl + 1) s hs hcs
        tauto
  | .obj [], _, _, s, hs, _ => by simp [jsonStrings, jsonStringsFields] at hs
  | .obj ((k, v) :: fs), ind, lvl, s, hs, hcs => by
      simp only [jsonStrings, jsonStringsFields, List.mem_cons,
        List.mem_append] at hs
      simp only [jsonDump, List.mem_cons, List.mem_append]
      rcases hs with hs | hs | hs
      · subst hs
        have := jsonQuoteString_keeps_nonascii _ c hcs hc
        tauto
      · have := jsonDump_keeps_nonascii c hc v ind (lvl + 1) s hs hcs
        tauto
      · have := jsonDumpObjRest_keeps_nonascii c hc fs ind (lvl + 1) s hs hcs
        tauto

/-- Helper for the array continuation. -/
def jsonDumpArrRest_keeps_nonascii (c : Char) (hc : 126 < c.toNat) :
    (es : List Json) → (ind lvl : Nat) → (s : String) →
      s ∈ jsonStringsList es → c ∈ s.data →
      c ∈ jsonDumpArrRest false ind lvl es
  | [], _, _, s, hs, _ => by simp [jsonStringsList] at hs
  | e :: es, ind, lvl, s, hs, hcs => by
      simp only [jsonStringsList, List.mem_append] at hs
      simp only [jsonDumpArrRest, List.mem_cons, List.mem_append]
      rcases hs with hs | hs
      · have := jsonDump_keeps_nonascii c hc e ind lvl s hs hcs
        tauto
      · have := jsonDumpArrRest_keeps_nonascii c hc es ind lvl s hs hcs
        tauto

/-- Helper for the object continuation. -/
def jsonDumpObjRest_keeps_nonascii (c : Char) (hc : 126 < c.toNat) :
    (fs : List (String × Json)) → (ind lvl : Nat) → (s : String) →
      s ∈ jsonStringsFields fs → c ∈ s.data →
      c ∈ jsonDumpObjRest false ind lvl fs
  | [], _, _, s, hs, _ => by simp [jsonStringsFields] at hs
  | (k, v) :: fs, ind, lvl, s, hs, hcs => by
      simp only [jsonStringsFields, List.mem_cons, List.mem_append] at hs
      simp only [jsonDumpObjRest, List.mem_cons, List.mem_append]
      rcases hs with hs | hs | hs
      · subst hs
        have := jsonQuoteString_keeps_nonascii _ c hcs hc
        tauto
      · have := jsonDump_keeps_nonascii c hc v ind lvl s hs hcs
        tauto
      · have := jsonDumpObjRest_keeps_nonascii c hc fs ind lvl s hs hcs
        tauto

end

/-- Helper: hexadecimal digits are ASCII. -/
lemma jsonHexDigit_ascii : ∀ n, n < 16 → (jsonHexDigit n).toNat ≤ 126 := by
  decide

/-- Helper: with `ensure_ascii=True`, every character the escaper emits
is ASCII. -/
lemma jsonEscapeChar_all_ascii (c : Char) :
    ∀ x ∈ jsonEscapeChar true c, x.toNat ≤ 126 := by
  intro x hx
  unfold jsonEscapeChar at hx
  split_ifs at hx with h1 h2 h3 h4 h5 h6 h7 h8 h9
  · rcases List.mem_pair.mp hx with h | h <;> subst h <;> decide
  · rcases List.mem_pair.mp hx with h | h <;> subst h <;> decide
  · rcases List.mem_pair.mp hx with h | h <;> subst h <;> decide
  · rcases List.mem_pair.mp hx with h | h <;> subst h <;> decide
  · rcases List.mem_pair.mp hx with h | h <;> subst h <;> decide
  · rcases List.mem_pair.mp hx with h | h <;> subst h <;> decide
  · rcases List.mem_pair.mp hx with h | h <;> subst h <;> decide
  · rcases List.mem_cons.mp hx with h | hx'
    · subst h; decide
    · rcases List.mem_cons.mp hx' with h | hx''
      · subst h; decide
      · simp only [jsonHex4, List.mem_cons, List.not_mem_nil, or_false] at hx''
        rcases hx'' with h | h | h | h <;> subst h <;>
          exact jsonHexDigit_ascii _ (Nat.mod_lt _ (by omega))
  · rcases List.mem_cons.mp hx with h | hx'
    · subst h; decide
    · rcases List.mem_cons.mp hx' with h | hx''
      · subst h; decide
      · simp only [jsonHex4, List.mem_cons, List.not_mem_nil, or_false] at hx''
        rcases hx'' with h | h | h | h <;> subst h <;>
          exact jsonHexDigit_ascii _ (Nat.mod_lt _ (by omega))
  · rw [List.mem_singleton.mp hx]
    simp only [Bool.true_and, decide_eq_true_eq, not_lt] at h9
    exact h9

/-- Helper: with `ensure_ascii=True`, a JSON string literal is pure
ASCII — non-ASCII characters are escaped away. -/
lemma jsonQuoteString_all_ascii (s : String) :
    ∀ x ∈ jsonQuoteString true s, x.toNat ≤ 126 := by
  intro x hx
  simp only [jsonQuoteString, List.mem_cons, List.mem_append,
    List.mem_flatten, List.mem_map, List.not_mem_nil, or_false] at hx
  rcases hx with (h | ⟨l, ⟨c, -, hl⟩, hxl⟩) | h
  · subst h; decide
  · exact jsonEscapeChar_all_ascii c x (hl ▸ hxl)
  · subst h; decide

/-- C8: the result-file write of the Lab 4 notebook.  The characters
written are the JSON serialization of exactly the sweep's
model-to-result-list mapping, produced with `indent=4` and
`ensure_ascii=False`; any non-empty mapping is pretty-printed across
lines; every non-ASCII character of any string anywhere in the mapping
(model identifiers and result-record contents alike) appears literally
in the output; and, by contrast, serializing a string with
`ensure_ascii=True` would yield only ASCII characters, so the flag used
is what preserves them rather than escaping. -/
theorem write_results_spec :
    (∀ d : List (String × List Json),
      write_results_content d
        = jsonDump false 4 0
            (Json.obj (d.map (fun p => (p.1, Json.arr p.2))))) ∧
    (∀ (s : String) (c : Char), c ∈ s.data → 126 < c.toNat →
      c ∈ jsonQuoteString false s) ∧
    (∀ (j : Json) (ind lvl : Nat) (s : String) (c : Char),
      126 < c.toNat → s ∈ jsonStrings j → c ∈ s.data →
      c ∈ jsonDump false ind lvl j) ∧
    (∀ (s : String) (x : Char), x ∈ jsonQuoteString true s →
      x.toNat ≤ 126) ∧
    (∀ d : List (String × List Json), d ≠ [] →
      '\n' ∈ write_results_content d) := by
  refine ⟨fun d => rfl, ?_, ?_, jsonQuoteString_all_ascii, ?_⟩
  · intro s c hcs h
    exact jsonQuoteString_keeps_nonascii s c hcs h
  · intro j ind lvl s c hc hs hcs
    exact jsonDump_keeps_nonascii c hc j ind lvl s hs hcs
  · intro d hd
    cases d with
    | nil => exact absurd rfl hd
    | cons p rest =>
        simp [write_results_content, jsonDump]

/-- C8 witness: the non-ASCII preservation clause applied to a concrete
one-character string (the character `é`, code point 233). -/
theorem write_results_spec_witness :
    Char.ofNat 233 ∈ jsonQuoteString false (String.mk [Char.ofNat 233]) :=
  write_results_spec.2.1 (String.mk [Char.ofNat 233]) (Char.ofNat 233)
    (by decide) (by decide)

/-- Helper: strings with equal character data are equal. -/
lemma string_data_inj {s t : String} (h : s.data = t.data) : s = t := by
  cases s
  cases t
  exact congrArg String.mk (by simpa using h)

/-- Helper: the user-turn separator does not overlap itself — no proper
nonempty suffix-drop of it is one of its prefixes (its only `"` is its
first character). -/
lemma promptUserSep_no_self_overlap :
    ∀ k, k < promptUserSep.data.length → 0 < k →
      ¬ (promptUserSep.data.drop k <+: promptUserSep.data) := by
  decide

/-- Helper: a word occurring around a separator can be split only one
way when the separator neither overlaps itself nor occurs in the left
parts (the ordered case). -/
lemma list_sep_split_le {α : Type} (M s1 s2 q1 q2 : List α)
    (hover : ∀ k, k < M.length → 0 < k → ¬ (M.drop k <+: M))
    (h2 : ¬ (M <:+: s2)) (hle : s1.length ≤ s2.length)
    (heq : s1 ++ (M ++ q1) = s2 ++ (M ++ q2)) : s1 = s2 ∧ q1 = q2 := by
  have hp1 : s1 <+: s2 ++ (M ++ q2) := heq ▸ List.prefix_append s1 (M ++ q1)
  have hp2 : s2 <+: s2 ++ (M ++ q2) := List.prefix_append s2 (M ++ q2)
  have h12 : s1 <+: s2 := List.prefix_of_prefix_length_le hp1 hp2 hle
  obtain ⟨t, ht⟩ := h12
  subst ht
  have heq' : M ++ q1 = t ++ (M ++ q2) := by
    rw [List.append_assoc] at heq
    exact List.append_cancel_left heq
  cases t with
  | nil =>
      refine ⟨(List.append_nil s1).symm, ?_⟩
      simp only [List.nil_append] at heq'
      exact List.append_cancel_left heq'
  | cons x t' =>
      exfalso
      by_cases hlen : M.length ≤ (x :: t').length
      · -- M would be a prefix of t, hence an infix of s2
        have e1 : (M ++ q1).take M.length = M := List.take_left M q1
        have e2 : ((x :: t') ++ (M ++ q2)).take M.length
            = (x :: t').take M.length := List.take_append_of_le_length hlen
        have hMt : M = (x :: t').take M.length := by
          conv_lhs => rw [← e1, heq']
          exact e2
        have hpre : M <+: (x :: t') := by
          rw [hMt]
          exact List.take_prefix M.length (x :: t')
        have hsuf : (x :: t') <:+ s1 ++ (x :: t') := ⟨s1, rfl⟩
        exact h2 (hpre.isInfix.trans hsuf.isInfix)
      · -- M would overlap itself by |t| positions
        push_neg at hlen
        have hlt : (x :: t').length ≤ M.length := le_of_lt hlen
        have e3 : (M ++ q1).drop (x :: t').length
            = M.drop (x :: t').length ++ q1 :=
          List.drop_append_of_le_length hlt
        have e4 : ((x :: t') ++ (M ++ q2)).drop (x :: t').length = M ++ q2 :=
          List.drop_left _ _
        have hdrop : M.drop (x :: t').length ++ q1 = M ++ q2 := by
          rw [← e3, heq', e4]
        have hp3 : M.drop (x :: t').length <+: M ++ q2 := by
          have := List.prefix_append (M.drop (x :: t').length) q1
          rw [hdrop] at this
          exact this
        have hp4 : M <+: M ++ q2 := List.prefix_append M q2
        have hlen2 : (M.drop (x :: t').length).length ≤ M.length := by
          rw [List.length_drop]
          omega
        have hpre : M.drop (x :: t').length <+: M :=
          List.prefix_of_prefix_length_le hp3 hp4 hlen2
        exact hover (x :: t').length hlen (by simp) hpre

/-- Helper: the unordered version of `list_sep_split_le`. -/
lemma list_sep_split {α : Type} (M s1 s2 q1 q2 : List α)
    (hover : ∀ k, k < M.length → 0 < k → ¬ (M.drop k <+: M))
    (h1 : ¬ (M <:+: s1)) (h2 : ¬ (M <:+: s2))
    (heq : s1 ++ (M ++ q1) = s2 ++ (M ++ q2)) : s1 = s2 ∧ q1 = q2 := by
  rcases le_total s1.length s2.length with hle | hle
  · exact list_sep_split_le M s1 s2 q1 q2 hover h2 hle heq
  · obtain ⟨hs, hq⟩ := list_sep_split_le M s2 s1 q2 q1 hover h1 hle heq.symm
    exact ⟨hs.symm, hq.symm⟩

set_option maxRecDepth 16384 in
/-- C5 counterexample: `format_prompt` is not injective on
(query, context) pairs.  First collision: the context list is joined
with single spaces, so the distinct contexts `["a b"]` and `["a", "b"]`
with the same query produce identical prompts.  Second collision: the
constant user-turn separator can be smuggled inside the query or the
context, moving text across the query/context boundary: two pairs with
different queries and different contexts also produce identical
prompts. -/
theorem format_prompt_not_injective :
    (format_prompt "q" ["a b"] = format_prompt "q" ["a", "b"]
      ∧ (["a b"] : List String) ≠ ["a", "b"])
    ∧ (format_prompt ("z" ++ promptUserSep ++ "z") []
          = format_prompt "z" [promptUserSep ++ "z"]
      ∧ "z" ++ promptUserSep ++ "z" ≠ "z") := by
  refine ⟨⟨?_, by decide⟩, ⟨?_, by decide⟩⟩
  · rfl
  · rfl

/-- C5 (amended): `format_prompt` is injective up to the two collisions
above: whenever the constant user-turn separator occurs in neither
joined context, two pairs produce the same prompt only if they have the
same query and the same space-joined context. -/
theorem format_prompt_inj_amended :
    ∀ (q1 q2 : String) (c1 c2 : List String),
      ¬ (promptUserSep.data <:+: (String.intercalate " " c1).data) →
      ¬ (promptUserSep.data <:+: (String.intercalate " " c2).data) →
      format_prompt q1 c1 = format_prompt q2 c2 →
      q1 = q2 ∧ String.intercalate " " c1 = String.intercalate " " c2 := by
  intro q1 q2 c1 c2 h1 h2 heq
  have hd : promptPrefix.data
        ++ ((String.intercalate " " c1).data
          ++ (promptUserSep.data ++ (q1.data ++ promptSuffix.data)))
      = promptPrefix.data
        ++ ((String.intercalate " " c2).data
          ++ (promptUserSep.data ++ (q2.data ++ promptSuffix.data))) := by
    have hq := congrArg String.data heq
    simpa [format_prompt, String.data_append, List.append_assoc] using hq
  have hd' := List.append_cancel_left hd
  obtain ⟨hj, hq⟩ :=
    list_sep_split promptUserSep.data _ _ _ _
      promptUserSep_no_self_overlap h1 h2 hd'
  exact ⟨string_data_inj (List.append_cancel_right hq), string_data_inj hj⟩

/-- C5 witness: the amended injectivity applied at a concrete pair. -/
theorem format_prompt_inj_amended_witness :
    ("hello" : String) = "hello"
    ∧ String.intercalate " " ["ctx"] = String.intercalate " " ["ctx"] :=
  format_prompt_inj_amended "hello" "hello" ["ctx"] ["ctx"]
    (by decide) (by decide) rfl

end RagNotebooks
